import Mathlib

/-!
Verification of the synthesizer firmware core (src/src/main.cpp) against its
natural-language specification.  The C++ program is shallowly embedded:
machine integers become `Nat`/`Int` with explicit `% 2^32` where overflow can
matter, C integer division (truncation toward zero) becomes `Int.div`, and
fallible code paths return `Option`.  Float literals that take part in exact
integer results are represented by the exact rational value of the IEEE-754
number involved; the two genuinely transcendental float functions of the
program (the sine oscillator and the PIANO exponential decay) are parameters
of the audio-ISR model, because no claim below depends on their values.
-/

namespace ESSynth

/-! ### Waveform enumeration (main.cpp line 55) -/

/-- enum WaveformType { SAWTOOTH = 0, PIANO, RISE, TRIANGLE, SINE, SQUARE, PULSE, NOISE } -/
inductive WaveformType
  | SAWTOOTH
  | PIANO
  | RISE
  | TRIANGLE
  | SINE
  | SQUARE
  | PULSE
  | NOISE
deriving DecidableEq

/-- The integer value of a WaveformType enumerator. -/
def WaveformType.toNat : WaveformType → Nat
  | .SAWTOOTH => 0
  | .PIANO => 1
  | .RISE => 2
  | .TRIANGLE => 3
  | .SINE => 4
  | .SQUARE => 5
  | .PULSE => 6
  | .NOISE => 7

/-- The WaveformType with a given integer value (cast from int in the source). -/
def waveformOfNat : Nat → WaveformType
  | 0 => .SAWTOOTH
  | 1 => .PIANO
  | 2 => .RISE
  | 3 => .TRIANGLE
  | 4 => .SINE
  | 5 => .SQUARE
  | 6 => .PULSE
  | _ => .NOISE

/-- scanKeysTask, line 484: currentWaveform = (WaveformType)(((int)currentWaveform + 1) % 6),
performed on each rising edge of the knob0 switch. -/
def nextWaveform (w : WaveformType) : WaveformType :=
  waveformOfNat ((w.toNat + 1) % 6)

/-! ### Knob quadrature decoding (main.cpp lines 65-148) -/

/-- State of one rotary knob: rotation value, clamp limits, previous 2-bit
quadrature state and the last legal delta, as in class Knob. -/
structure Knob where
  rotation : Int
  lowerLimit : Int
  upperLimit : Int
  knobPrev : Nat
  lastLegalDelta : Int
deriving DecidableEq

/-- Knob constructor Knob(lower, upper): rotation starts at lower, knobPrev 0,
lastLegalDelta 0. -/
def Knob.init (lower upper : Int) : Knob :=
  { rotation := lower, lowerLimit := lower, upperLimit := upper,
    knobPrev := 0, lastLegalDelta := 0 }

/-- The delta computed by Knob::update from the previous state p, the last
legal delta and the new quadrature state q (main.cpp lines 75-111). -/
def knobDelta (p : Nat) (lld : Int) (q : Nat) : Int :=
  let diff := p ^^^ q
  if diff = 0 then 0
  else if diff = 3 then (if lld ≠ 0 then lld else 0)
  else
    let transition := (p <<< 2) ||| q
    if transition = 0b0001 then 1
    else if transition = 0b0100 then -1
    else if transition = 0b1011 then -1
    else if transition = 0b1110 then 1
    else 0

/-- The lastLegalDelta field after Knob::update: updated to ±1 on the four
legal table transitions, unchanged otherwise. -/
def knobNewLastLegal (p : Nat) (lld : Int) (q : Nat) : Int :=
  let diff := p ^^^ q
  if diff = 0 then lld
  else if diff = 3 then lld
  else
    let transition := (p <<< 2) ||| q
    if transition = 0b0001 then 1
    else if transition = 0b0100 then -1
    else if transition = 0b1011 then -1
    else if transition = 0b1110 then 1
    else lld

/-- Knob::update: compute the delta, remember the new state, then
load-add-clamp-store the rotation (main.cpp lines 74-123). -/
def Knob.update (k : Knob) (q : Nat) : Knob :=
  let delta := knobDelta k.knobPrev k.lastLegalDelta q
  let newVal := k.rotation + delta
  let newVal := if newVal < k.lowerLimit then k.lowerLimit else newVal
  let newVal := if newVal > k.upperLimit then k.upperLimit else newVal
  { rotation := newVal, lowerLimit := k.lowerLimit, upperLimit := k.upperLimit,
    knobPrev := q, lastLegalDelta := knobNewLastLegal k.knobPrev k.lastLegalDelta q }

/-- A freshly constructed knob driven through a sequence of quadrature states. -/
def knobRun (lower upper : Int) (qs : List Nat) : Knob :=
  qs.foldl Knob.update (Knob.init lower upper)

/-! ### Semitone step-size table (main.cpp lines 231-249) -/

/-- calculateStepSize from main.cpp:
(uint32_t)((pow(2, 32) * frequency) / SAMPLE_RATE) with SAMPLE_RATE = 22050.
The frequency argument is an IEEE-754 single-precision literal, represented
here by its exact rational value num/den.  The double product
pow(2,32)*frequency is exact (a 24-bit significand shifted by 2^32), and for
all twelve table frequencies the truncation of the rounded double quotient
equals the floor of the exact rational quotient, which is what Nat division
computes. -/
def calculateStepSize (num den : Nat) : Nat :=
  (2 ^ 32 * num) / (den * 22050)

/-- stepSizes[12]: the reference-octave phase increments for C..B.  Each
num/den pair is the exact value of the float literal in the source. -/
def stepSizesList : List Nat :=
  [calculateStepSize 2143273 8192,    -- 261.63f  C
   calculateStepSize 4541317 16384,   -- 277.18f  C#
   calculateStepSize 9622651 32768,   -- 293.66f  D
   calculateStepSize 2548777 8192,    -- 311.13f  D#
   calculateStepSize 2700329 8192,    -- 329.63f  E
   calculateStepSize 11443569 32768,  -- 349.23f  F
   calculateStepSize 1515479 4096,    -- 369.99f  F#
   calculateStepSize 392 1,           -- 392.00f  G
   calculateStepSize 6804275 16384,   -- 415.30f  G#
   calculateStepSize 440 1,           -- 440.00f  A
   calculateStepSize 15275131 32768,  -- 466.16f  A#
   calculateStepSize 4045865 8192]    -- 493.88f  B

/-- Rounding to nearest (half away from zero, as the spec's round on a
positive quotient): the value the spec claims for the table entries. -/
def natRound (a b : Nat) : Nat :=
  (2 * a + b) / (2 * b)

/-! ### Helper lemmas for knob theorems -/

/-- One knob update keeps the rotation inside the clamp interval and preserves
the limits. -/
theorem Knob.update_rotation_bounds (k : Knob) (q : Nat)
    (h : k.lowerLimit ≤ k.upperLimit) :
    k.lowerLimit ≤ (k.update q).rotation ∧ (k.update q).rotation ≤ k.upperLimit := by
  simp only [Knob.update]
  split_ifs <;> omega

/-- Folding updates over any input list keeps the rotation clamped and the
limits fixed, given a start state with those properties. -/
theorem foldl_update_bounds (qs : List Nat) (k : Knob)
    (h : k.lowerLimit ≤ k.upperLimit)
    (hr : k.lowerLimit ≤ k.rotation ∧ k.rotation ≤ k.upperLimit) :
    k.lowerLimit ≤ (qs.foldl Knob.update k).rotation ∧
      (qs.foldl Knob.update k).rotation ≤ k.upperLimit ∧
      (qs.foldl Knob.update k).lowerLimit = k.lowerLimit ∧
      (qs.foldl Knob.update k).upperLimit = k.upperLimit := by
  induction qs generalizing k with
  | nil => exact ⟨hr.1, hr.2, rfl, rfl⟩
  | cons q qs ih =>
    have hb := Knob.update_rotation_bounds k q h
    have := ih (k.update q) h hb
    simpa using this

/-! ### Claim C4: waveform cycling on the knob0 switch -/

/-- C4 counterexample: the claim says a rising edge of the knob0 switch takes
SAWTOOTH to TRIANGLE and never produces PIANO; in fact (w+1)%6 over the enum
SAWTOOTH=0, PIANO=1, RISE=2, TRIANGLE=3, SINE=4, SQUARE=5, ... takes SAWTOOTH
to PIANO. -/
theorem C4_counterexample :
    nextWaveform WaveformType.SAWTOOTH = WaveformType.PIANO ∧
      WaveformType.PIANO ≠ WaveformType.TRIANGLE := by
  decide

/-- C4 (amended): on every rising edge of the knob0 switch the waveform
advances cyclically through the first six enum values in the order
SAWTOOTH, PIANO, RISE, TRIANGLE, SINE, SQUARE, back to SAWTOOTH; from any of
these six, six consecutive edges return the starting waveform, and PULSE and
NOISE are never produced by the switch. -/
theorem C4_waveform_cycle :
    nextWaveform WaveformType.SAWTOOTH = WaveformType.PIANO ∧
    nextWaveform WaveformType.PIANO = WaveformType.RISE ∧
    nextWaveform WaveformType.RISE = WaveformType.TRIANGLE ∧
    nextWaveform WaveformType.TRIANGLE = WaveformType.SINE ∧
    nextWaveform WaveformType.SINE = WaveformType.SQUARE ∧
    nextWaveform WaveformType.SQUARE = WaveformType.SAWTOOTH ∧
    (∀ w : WaveformType, w.toNat < 6 → nextWaveform^[6] w = w) ∧
    (∀ w : WaveformType, nextWaveform w ≠ WaveformType.PULSE ∧
      nextWaveform w ≠ WaveformType.NOISE) := by
  refine ⟨rfl, rfl, rfl, rfl, rfl, rfl, ?_, ?_⟩
  · intro w hw
    cases w <;> first | rfl | exact absurd hw (by decide)
  · intro w
    cases w <;> exact ⟨by decide, by decide⟩

/-- C4 witness: six edges starting from TRIANGLE come back to TRIANGLE. -/
theorem C4_waveform_cycle_witness :
    nextWaveform^[6] WaveformType.TRIANGLE = WaveformType.TRIANGLE :=
  C4_waveform_cycle.2.2.2.2.2.2.1 WaveformType.TRIANGLE (by decide)

/-! ### Claim C5: quadrature delta table and rotation clamp invariant -/

/-- C5: for every knob update with previous 2-bit state p and new state s:
p = s gives delta 0; p xor s = 3 gives the last legal delta (0 if none yet);
a single-bit change follows the table 00 to 01 gives +1, 01 to 00 gives -1,
10 to 11 gives -1, 11 to 10 gives +1, every other single-bit transition gives
0; and starting from rotation = lower, after any update sequence the
invariant lower <= rotation <= upper holds. -/
theorem C5_knob_delta_and_clamp :
    (∀ (p q : Nat) (lld : Int), p < 4 → q < 4 →
       ((p = q → knobDelta p lld q = 0) ∧
        (p ^^^ q = 3 → knobDelta p lld q = lld) ∧
        ((p ^^^ q = 1 ∨ p ^^^ q = 2) →
           knobDelta p lld q =
             if p = 0 ∧ q = 1 then 1
             else if p = 1 ∧ q = 0 then -1
             else if p = 2 ∧ q = 3 then -1
             else if p = 3 ∧ q = 2 then 1
             else 0))) ∧
    (∀ (lower upper : Int) (qs : List Nat), lower ≤ upper →
       lower ≤ (knobRun lower upper qs).rotation ∧
         (knobRun lower upper qs).rotation ≤ upper) := by
  constructor
  · intro p q lld hp hq
    interval_cases p <;> interval_cases q <;>
      refine ⟨fun h => ?_, fun h => ?_, fun h => ?_⟩ <;> simp_all [knobDelta]
  · intro lower upper qs h
    have := foldl_update_bounds qs (Knob.init lower upper) h ⟨le_refl _, h⟩
    exact ⟨this.1, this.2.1⟩

/-- C5 witness: the 00 to 01 transition gives +1, and a concrete update run
from a (0,8) knob stays inside the clamp interval. -/
theorem C5_knob_delta_and_clamp_witness :
    knobDelta 0 0 1 = 1 ∧
      (0 ≤ (knobRun 0 8 [1, 3, 2, 0, 1]).rotation ∧
        (knobRun 0 8 [1, 3, 2, 0, 1]).rotation ≤ 8) := by
  constructor
  · have h := (C5_knob_delta_and_clamp.1 0 1 0 (by decide) (by decide)).2.2
      (Or.inl (by decide))
    simpa using h
  · exact C5_knob_delta_and_clamp.2 0 8 [1, 3, 2, 0, 1] (by decide)

/-! ### Claim C6: inverse quadrature transitions cancel away from the clamps -/

/-- For a single-bit transition the delta is at most 1 in absolute value and
the reverse transition has the opposite delta, whatever the remembered last
legal delta is on either side. -/
theorem knobDelta_single_bit (p q : Nat) (hp : p < 4) (hq : q < 4)
    (hs : p ^^^ q = 1 ∨ p ^^^ q = 2) (lld lld2 : Int) :
    knobDelta p lld q = -knobDelta q lld2 p ∧
      -1 ≤ knobDelta p lld q ∧ knobDelta p lld q ≤ 1 := by
  interval_cases p <;> interval_cases q <;> simp_all [knobDelta]

/-- When the clamped sum stays inside the limits, an update adds exactly the
quadrature delta to the rotation. -/
theorem Knob.update_rotation_of_bounds (k : Knob) (q : Nat)
    (h1 : k.lowerLimit ≤ k.rotation + knobDelta k.knobPrev k.lastLegalDelta q)
    (h2 : k.rotation + knobDelta k.knobPrev k.lastLegalDelta q ≤ k.upperLimit) :
    (k.update q).rotation = k.rotation + knobDelta k.knobPrev k.lastLegalDelta q := by
  simp only [Knob.update]
  split_ifs <;> omega

/-- C6: for a knob whose rotation is strictly between the clamp limits,
applying a single-bit quadrature transition and then its inverse returns the
rotation to its starting value. -/
theorem C6_inverse_transitions (k : Knob) (q : Nat)
    (hp : k.knobPrev < 4) (hq : q < 4)
    (hs : k.knobPrev ^^^ q = 1 ∨ k.knobPrev ^^^ q = 2)
    (hl : k.lowerLimit < k.rotation) (hu : k.rotation < k.upperLimit) :
    ((k.update q).update k.knobPrev).rotation = k.rotation := by
  have hd := knobDelta_single_bit k.knobPrev q hp hq hs k.lastLegalDelta
    (knobNewLastLegal k.knobPrev k.lastLegalDelta q)
  have e1 : (k.update q).rotation = k.rotation + knobDelta k.knobPrev k.lastLegalDelta q :=
    Knob.update_rotation_of_bounds k q (by omega) (by omega)
  have hprev : (k.update q).knobPrev = q := rfl
  have hlo : (k.update q).lowerLimit = k.lowerLimit := rfl
  have hhi : (k.update q).upperLimit = k.upperLimit := rfl
  have hlld : (k.update q).lastLegalDelta = knobNewLastLegal k.knobPrev k.lastLegalDelta q := rfl
  have e2 : ((k.update q).update k.knobPrev).rotation =
      (k.update q).rotation +
        knobDelta (k.update q).knobPrev (k.update q).lastLegalDelta k.knobPrev := by
    refine Knob.update_rotation_of_bounds (k.update q) k.knobPrev ?_ ?_ <;>
      rw [hprev, hlld, e1] <;> omega
  rw [e2, hprev, hlld, e1]
  omega

/-- C6 witness: a knob at rotation 3 in [0,8] with previous state 00, driven
00 to 01 and back, returns to rotation 3. -/
theorem C6_inverse_transitions_witness :
    ((({ rotation := 3, lowerLimit := 0, upperLimit := 8, knobPrev := 0,
         lastLegalDelta := 0 : Knob }).update 1).update 0).rotation = 3 :=
  C6_inverse_transitions _ 1 (by decide) (by decide) (Or.inl (by decide))
    (by decide) (by decide)

/-! ### Claim C7: the semitone step-size table -/

/-- C7 counterexample: the claim says step[9] = round(2^32 * 440 / 22050) =
85704563 exactly, but calculateStepSize truncates the quotient, so the table
holds 85704562. -/
theorem C7_counterexample :
    stepSizesList.getD 9 0 = 85704562 ∧
      natRound (2 ^ 32 * 440) 22050 = 85704563 ∧
      stepSizesList.getD 9 0 ≠ natRound (2 ^ 32 * 440) 22050 := by
  refine ⟨by decide, by decide, by decide⟩

/-- C7 (amended): each table entry is the truncation (not rounding) of
2^32 * f_i / 22050 with f_i the exact single-precision value of the source
literal; in particular step[9] = floor(2^32 * 440 / 22050) = 85704562.  The
table is a compile-time constant. -/
theorem C7_step_table :
    stepSizesList =
      [50961102, 53989977, 57200005, 60602866, 64206353, 68024103,
       72067796, 76354974, 80893417, 85704562, 90800089, 96199477] ∧
      stepSizesList.getD 9 0 = 2 ^ 32 * 440 / 22050 := by
  refine ⟨by decide, by decide⟩

/-! ### Voice table and event decoder (main.cpp lines 348-357 and 608-680) -/

/-- struct ActiveNote { uint32_t stepSize; uint32_t phaseAcc; uint32_t elapsed; } -/
structure ActiveNote where
  stepSize : Nat
  phaseAcc : Nat
  elapsed : Nat
deriving DecidableEq

/-- MAX_POLYPHONY from main.cpp line 354. -/
def MAX_POLYPHONY : Nat := 12

/-- The elapsed field of the voice at index j (0 outside the table). -/
def elapsedAt (notes : List ActiveNote) (j : Nat) : Nat :=
  (notes.getD j { stepSize := 0, phaseAcc := 0, elapsed := 0 }).elapsed

/-- The voice-stealing scan of decodeTask (main.cpp lines 641-648): walk the
remaining voices keeping the index of the first voice with the strictly
largest elapsed count seen so far. -/
def stealScan : List ActiveNote → Nat → Nat → Nat → Nat
  | [], idxToSteal, _, _ => idxToSteal
  | v :: vs, idxToSteal, maxElapsed, i =>
    if v.elapsed > maxElapsed then stealScan vs i v.elapsed (i + 1)
    else stealScan vs idxToSteal maxElapsed (i + 1)

/-- Index selected by voice stealing: start from index 0 with its elapsed
count and scan the rest (decodeTask lines 641-648). -/
def stealIndex (notes : List ActiveNote) : Nat :=
  match notes with
  | [] => 0
  | v :: vs => stealScan vs 0 v.elapsed 1

/-- Removal loop of the release branch (decodeTask lines 616-625): drop the
first voice whose stepSize matches, shifting the rest down, then stop. -/
def removeFirst (step : Nat) : List ActiveNote → List ActiveNote
  | [] => []
  | v :: vs => if v.stepSize = step then vs else v :: removeFirst step vs

/-- Press branch of decodeTask (lines 630-652): append a fresh voice at the
tail when the table has room, otherwise overwrite the stolen slot in place. -/
def pressNote (notes : List ActiveNote) (step : Nat) : List ActiveNote :=
  if notes.length < MAX_POLYPHONY then
    notes ++ [{ stepSize := step, phaseAcc := 0, elapsed := 0 }]
  else
    notes.set (stealIndex notes) { stepSize := step, phaseAcc := 0, elapsed := 0 }

/-- Per-message processing of decodeTask (lines 614-654) on the packed voice
table.  kind, octave and note are the first three event bytes; kind 82 is
the character R and kind 80 is the character P.  The result is none exactly
when the code would read stepSizes out of bounds, which happens in the
release branch: the loop body evaluates stepSizes[note] whenever the table
is nonempty, without checking note < 12. -/
def decodeEvent (notes : List ActiveNote) (kind octave note : Nat) :
    Option (List ActiveNote) :=
  if kind = 82 then
    match notes with
    | [] => some []
    | _ :: _ =>
      match stepSizesList[note]? with
      | none => none
      | some step => some (removeFirst step notes)
  else if kind = 80 then
    if note < 12 then some (pressNote notes (stepSizesList.getD note 0))
    else some notes
  else some notes

/-! ### Specification of the voice-stealing scan -/

/-- Invariant-carrying specification of stealScan: walking the suffix of L
that starts at index i, with a current best index and its elapsed count,
yields the index of the first maximal elapsed count of the whole list. -/
theorem stealScan_spec (L : List ActiveNote) :
    ∀ (i best : Nat), best < L.length →
      (∀ j, j < i → elapsedAt L j ≤ elapsedAt L best) →
      (∀ j, j < best → elapsedAt L j < elapsedAt L best) →
      stealScan (L.drop i) best (elapsedAt L best) i < L.length ∧
        (∀ j, j < L.length →
          elapsedAt L j ≤ elapsedAt L (stealScan (L.drop i) best (elapsedAt L best) i)) ∧
        (∀ j, j < stealScan (L.drop i) best (elapsedAt L best) i →
          elapsedAt L j < elapsedAt L (stealScan (L.drop i) best (elapsedAt L best) i)) := by
  have main : ∀ (suf : List ActiveNote) (i best : Nat), L.drop i = suf →
      best < L.length →
      (∀ j, j < i → elapsedAt L j ≤ elapsedAt L best) →
      (∀ j, j < best → elapsedAt L j < elapsedAt L best) →
      stealScan suf best (elapsedAt L best) i < L.length ∧
        (∀ j, j < L.length →
          elapsedAt L j ≤ elapsedAt L (stealScan suf best (elapsedAt L best) i)) ∧
        (∀ j, j < stealScan suf best (elapsedAt L best) i →
          elapsedAt L j < elapsedAt L (stealScan suf best (elapsedAt L best) i)) := by
    intro suf
    induction suf with
    | nil =>
      intro i best hdrop hbest hle hlt
      have hilen : L.length ≤ i := by
        by_contra hcon
        push_neg at hcon
        have := List.drop_eq_getElem_cons hcon
        rw [hdrop] at this
        exact List.noConfusion this
      refine ⟨hbest, ?_, hlt⟩
      intro j hj
      exact hle j (lt_of_lt_of_le hj hilen)
    | cons v vs ih =>
      intro i best hdrop hbest hle hlt
      have hilen : i < L.length := by
        by_contra hcon
        push_neg at hcon
        rw [List.drop_eq_nil_of_le hcon] at hdrop
        exact List.noConfusion hdrop
      have hcons := List.drop_eq_getElem_cons hilen
      rw [hdrop] at hcons
      have hgetl : L[i] = v := ((List.cons.injEq _ _ _ _).mp hcons.symm).1
      have hvs : L.drop (i + 1) = vs := ((List.cons.injEq _ _ _ _).mp hcons.symm).2
      have hvelapsed : elapsedAt L i = v.elapsed := by
        simp only [elapsedAt]
        rw [List.getD_eq_getElem _ _ hilen, hgetl]
      have hred : stealScan (v :: vs) best (elapsedAt L best) i =
          if v.elapsed > elapsedAt L best then stealScan vs i v.elapsed (i + 1)
          else stealScan vs best (elapsedAt L best) (i + 1) := rfl
      rw [hred]
      by_cases hgt : v.elapsed > elapsedAt L best
      · rw [if_pos hgt]
        have hstep : ∀ j, j < i + 1 → elapsedAt L j ≤ elapsedAt L i := by
          intro j hj
          rcases Nat.lt_succ_iff_lt_or_eq.mp hj with hj2 | hj2
          · exact le_of_lt (lt_of_le_of_lt (hle j hj2) (hvelapsed ▸ hgt))
          · exact hj2 ▸ le_refl _
        have hstep2 : ∀ j, j < i → elapsedAt L j < elapsedAt L i := by
          intro j hj
          exact lt_of_le_of_lt (hle j hj) (hvelapsed ▸ hgt)
        have hres := ih (i + 1) i hvs hilen hstep hstep2
        rw [hvelapsed] at hres
        exact hres
      · rw [if_neg hgt]
        have hstep : ∀ j, j < i + 1 → elapsedAt L j ≤ elapsedAt L best := by
          intro j hj
          rcases Nat.lt_succ_iff_lt_or_eq.mp hj with hj2 | hj2
          · exact hle j hj2
          · rw [hj2, hvelapsed]
            omega
        exact ih (i + 1) best hvs hbest hstep hlt
  intro i best hbest hle hlt
  exact main (L.drop i) i best rfl hbest hle hlt

/-- The index chosen by voice stealing on a nonempty table is in range, its
voice has a maximal elapsed count, and every earlier voice has a strictly
smaller elapsed count. -/
theorem stealIndex_spec (notes : List ActiveNote) (hne : notes ≠ []) :
    stealIndex notes < notes.length ∧
      (∀ j, j < notes.length → elapsedAt notes j ≤ elapsedAt notes (stealIndex notes)) ∧
      (∀ j, j < stealIndex notes → elapsedAt notes j < elapsedAt notes (stealIndex notes)) := by
  match notes, hne with
  | v :: vs, _ =>
    have h0 : elapsedAt (v :: vs) 0 = v.elapsed := rfl
    have hdrop : (v :: vs).drop 1 = vs := rfl
    have := stealScan_spec (v :: vs) 1 0 (by simp)
      (by intro j hj; interval_cases j; exact le_refl _)
      (by intro j hj; omega)
    rw [h0] at this
    simpa [stealIndex, hdrop] using this

/-! ### Removal loop lemmas -/

/-- If no voice matches, the removal loop leaves the table unchanged. -/
theorem removeFirst_no_match (step : Nat) (notes : List ActiveNote)
    (h : ∀ v ∈ notes, v.stepSize ≠ step) : removeFirst step notes = notes := by
  induction notes with
  | nil => rfl
  | cons v vs ih =>
    rw [removeFirst, if_neg (h v (by simp))]
    rw [ih (fun u hu => h u (by simp [hu]))]

/-- The removal loop removes exactly the first matching voice, preserving the
order of the others. -/
theorem removeFirst_first_match (step : Nat) (pre : List ActiveNote)
    (v : ActiveNote) (post : List ActiveNote)
    (hpre : ∀ u ∈ pre, u.stepSize ≠ step) (hv : v.stepSize = step) :
    removeFirst step (pre ++ v :: post) = pre ++ post := by
  induction pre with
  | nil => simp [removeFirst, hv]
  | cons u us ih =>
    rw [List.cons_append, removeFirst, if_neg (hpre u (by simp))]
    rw [ih (fun w hw => hpre w (by simp [hw])), List.cons_append]

/-! ### Claim C1: press events, appending and voice stealing -/

/-- The press-event postcondition of claim C1 for one decoder step: the press
succeeds, appends at the tail when the table has room, otherwise overwrites
in place the voice with the greatest elapsed count (ties to the lowest
index), and the count stays within [0,12]. -/
def PressSpec (notes : List ActiveNote) (octave note : Nat) : Prop :=
  ∃ result, decodeEvent notes 80 octave note = some result ∧
    (notes.length < 12 →
      result = notes ++
          [{ stepSize := stepSizesList.getD note 0, phaseAcc := 0, elapsed := 0 }] ∧
        result.length = notes.length + 1) ∧
    (notes.length = 12 →
      ∃ k, k < 12 ∧
        result = notes.set k
            { stepSize := stepSizesList.getD note 0, phaseAcc := 0, elapsed := 0 } ∧
        (∀ j, j < notes.length → elapsedAt notes j ≤ elapsedAt notes k) ∧
        (∀ j, j < k → elapsedAt notes j < elapsedAt notes k) ∧
        result.length = 12) ∧
    result.length ≤ 12

/-- C1: every press event with note below 12 delivered to a table of at most
12 voices satisfies the press postcondition. -/
theorem C1_press (notes : List ActiveNote) (octave note : Nat)
    (hnote : note < 12) (hlen : notes.length ≤ 12) :
    PressSpec notes octave note := by
  refine ⟨pressNote notes (stepSizesList.getD note 0), ?_, ?_, ?_, ?_⟩
  · simp [decodeEvent, hnote]
  · intro h
    rw [pressNote, if_pos (by simpa [MAX_POLYPHONY] using h)]
    exact ⟨rfl, by simp⟩
  · intro h
    have hne : notes ≠ [] := by
      intro hcon
      rw [hcon] at h
      simp at h
    have hs := stealIndex_spec notes hne
    refine ⟨stealIndex notes, by omega, ?_, hs.2.1, hs.2.2, ?_⟩
    · rw [pressNote, if_neg (by simp [MAX_POLYPHONY, h])]
    · rw [pressNote, if_neg (by simp [MAX_POLYPHONY, h])]
      simp [h]
  · by_cases h : notes.length < 12
    · rw [pressNote, if_pos (by simpa [MAX_POLYPHONY] using h)]
      simp
      omega
    · rw [pressNote, if_neg (by simpa [MAX_POLYPHONY] using h)]
      simp [List.length_set]
      omega

/-- C1 witness: a press of note 0 into the empty table. -/
theorem C1_press_witness : PressSpec [] 4 0 :=
  C1_press [] 4 0 (by decide) (by decide)

/-! ### Claim C2: malformed release events trigger an out-of-bounds read -/

/-- C2 evaluated at the failing input: with one active voice, a release event
whose note byte is 12 makes the decoder loop body evaluate stepSizes[12], an
out-of-bounds read of the 12-entry table (modelled as none).  This
contradicts the claim that malformed inbound events are ignored with no
out-of-bounds table index ever evaluated. -/
theorem C2_release_note_oob :
    decodeEvent [{ stepSize := 50961102, phaseAcc := 0, elapsed := 0 }] 82 4 12 =
      none := by
  rfl

/-! ### Claim C3: release events remove the first matching voice -/

/-- C3: a release with note below 12 removes the first voice whose stepSize
matches step[note] by shifting the later entries down one place, and leaves
the table unchanged when no voice matches. -/
theorem C3_release (notes : List ActiveNote) (octave note : Nat)
    (hnote : note < 12) :
    decodeEvent notes 82 octave note =
        some (removeFirst (stepSizesList.getD note 0) notes) ∧
      ((∀ v ∈ notes, v.stepSize ≠ stepSizesList.getD note 0) →
        removeFirst (stepSizesList.getD note 0) notes = notes) ∧
      (∀ pre v post, notes = pre ++ v :: post →
        v.stepSize = stepSizesList.getD note 0 →
        (∀ u ∈ pre, u.stepSize ≠ stepSizesList.getD note 0) →
        removeFirst (stepSizesList.getD note 0) notes = pre ++ post ∧
          (removeFirst (stepSizesList.getD note 0) notes).length + 1 =
            notes.length) := by
  have hlen : note < stepSizesList.length := hnote
  have hget : stepSizesList[note]? = some (stepSizesList.getD note 0) := by
    rw [List.getElem?_eq_getElem hlen, List.getD_eq_getElem _ _ hlen]
  refine ⟨?_, removeFirst_no_match _ notes, ?_⟩
  · cases notes with
    | nil => rfl
    | cons v vs =>
      show (match stepSizesList[note]? with
            | none => none
            | some step => some (removeFirst step (v :: vs))) =
          some (removeFirst (stepSizesList.getD note 0) (v :: vs))
      rw [hget]
  · intro pre v post hsplit hv hpre
    rw [hsplit, removeFirst_first_match _ pre v post hpre hv]
    constructor
    · rfl
    · simp
      omega

/-- C3 witness: releasing note 9 from a one-voice table holding step[9]. -/
theorem C3_release_witness :
    decodeEvent [{ stepSize := 85704562, phaseAcc := 0, elapsed := 0 }] 82 4 9 =
      some (removeFirst (stepSizesList.getD 9 0)
        [{ stepSize := 85704562, phaseAcc := 0, elapsed := 0 }]) :=
  (C3_release [{ stepSize := 85704562, phaseAcc := 0, elapsed := 0 }] 4 9
    (by decide)).1

/-! ### Audio ISR model (main.cpp lines 699-908)

Float arithmetic is idealized as exact rational arithmetic; the two
transcendental float functions (the sine oscillator sinf and the PIANO
exponential decay expf) are oracle parameters, because no claim below
depends on their values. -/

/-- enum ModuleRole { SENDER, RECEIVER } (main.cpp line 46). -/
inductive ModuleRole
  | SENDER
  | RECEIVER
deriving DecidableEq

/-- The transcendental float functions of the ISR, kept abstract:
sineSample x models (int)(sinf((x / 256.0f) * 2 pi) * 127.0f) for the top-8
phase bits x, and pianoEnv models getEnvelope, i.e. expf(-3 t) at t =
elapsed / 22050. -/
structure FloatOracles where
  sineSample : Nat → Int
  pianoEnv : Nat → ℚ

/-- getAttackEnvelope (main.cpp lines 700-705): linear attack reaching 1 at
0.3 s. -/
def getAttackEnvelope (elapsed : Nat) : ℚ :=
  let t : ℚ := (elapsed : ℚ) / 22050
  if t ≥ 3 / 10 then 1 else t / (3 / 10)

/-- getRisePitchFactor (main.cpp lines 708-714): rises from 0.95 to 1 over
50 ms. -/
def getRisePitchFactor (elapsed : Nat) : ℚ :=
  let t : ℚ := (elapsed : ℚ) / 22050
  if t ≥ 1 / 20 then 1 else 95 / 100 + 5 / 100 * (t / (1 / 20))

/-- getPitchFactor (main.cpp lines 728-733): drops from 1.05 to 1 over
50 ms. -/
def getPitchFactor (elapsed : Nat) : ℚ :=
  let t : ℚ := (elapsed : ℚ) / 22050
  105 / 100 - 5 / 100 * min (t / (1 / 20)) 1

/-- C cast of a float value to int: truncation toward zero. -/
def cIntOfQ (q : ℚ) : Int :=
  if 0 ≤ q then ⌊q⌋ else -⌊-q⌋

/-- C cast of a nonnegative float value to uint32_t: truncation into the
32-bit range. -/
def truncToUInt32 (q : ℚ) : Nat :=
  (⌊q⌋).toNat % 2 ^ 32

/-- Octave scaling of a step size (sampleISR, four occurrences): shift left
above octave 4, shift right below, in uint32 arithmetic. -/
def octaveScale (octave noteStep : Nat) : Nat :=
  if octave > 4 then (noteStep <<< (octave - 4)) % 2 ^ 32
  else if octave < 4 then noteStep >>> (4 - octave)
  else noteStep

/-- The two-sided if clamp used by sampleISR for octave, volume and the
final DAC value. -/
def clamp2 (lo hi v : Int) : Int :=
  let v1 := if v < lo then lo else v
  if v1 > hi then hi else v1

/-- transposeMultipliers (sampleISR lines 748-751); the float literals are
idealized as exact decimal rationals. -/
def transposeMultipliers : List ℚ :=
  [0.7937098, 0.8409038, 0.8909039, 0.943877, 1.0, 1.05946,
   1.1224555, 1.1891967, 1.2599063]

/-- computeWaveform (main.cpp lines 258-310): sample from the top 8 bits of
a phase accumulator; PULSE reads knob3 as duty cycle, NOISE advances the
LCG seed, SINE consults the sine oracle.  Returns the sample and the new
noise seed. -/
def computeWaveform (fo : FloatOracles) (wf : WaveformType) (knob3 : Int)
    (noiseSeed phase : Nat) : Int × Nat :=
  let x : Nat := phase % 2 ^ 32 >>> 24
  match wf with
  | .SAWTOOTH => ((x : Int) - 128, noiseSeed)
  | .TRIANGLE =>
      (if x < 128 then (x : Int) * 2 - 128 else (255 - (x : Int)) * 2 - 128,
       noiseSeed)
  | .SINE => (fo.sineSample x, noiseSeed)
  | .SQUARE => (if x < 128 then 127 else -127, noiseSeed)
  | .PULSE =>
      let threshold := Int.tdiv (knob3 * 256) 9
      (if (x : Int) < threshold then 127 else -127, noiseSeed)
  | .NOISE =>
      let seed := (noiseSeed * 1664525 + 1013904223) % 2 ^ 32
      (Int.ofNat (seed &&& 255) - 128, seed)
  | _ => ((x : Int) - 128, noiseSeed)

/-- The global state read and written by sampleISR. -/
structure ISRState where
  moduleRole : ModuleRole
  currentWaveform : WaveformType
  currentStepSize : Nat
  phaseAcc : Nat
  activeNotes : List ActiveNote
  knob0 : Int
  knob2 : Int
  knob3 : Int
  joyY12Val : Int
  noiseSeed : Nat
  moduleOctave : Nat

/-- The PIANO per-voice loop (sampleISR lines 764-794): bump elapsed, drop
the voice in place if its decay envelope fell below 0.01, otherwise glide
the pitch, advance the phase and accumulate the enveloped sine sample.
Returns the surviving voices, the mix sum and the voice count. -/
def pianoVoiceLoop (fo : FloatOracles) (octave : Nat) :
    List ActiveNote → List ActiveNote × Int × Nat
  | [] => ([], 0, 0)
  | v :: vs =>
    let elapsed := v.elapsed + 1
    let env := fo.pianoEnv elapsed
    if env < 1 / 100 then pianoVoiceLoop fo octave vs
    else
      let pitchFactor := getPitchFactor elapsed
      let noteStep := octaveScale octave v.stepSize
      let modifiedStep := truncToUInt32 ((noteStep : ℚ) * pitchFactor)
      let newPhase := (v.phaseAcc + modifiedStep) % 2 ^ 32
      let sample := cIntOfQ ((fo.sineSample (newPhase >>> 24) : ℚ) * env)
      let rest := pianoVoiceLoop fo octave vs
      ({ stepSize := v.stepSize, phaseAcc := newPhase, elapsed := elapsed } :: rest.1,
       rest.2.1 + sample, rest.2.2 + 1)

/-- The RISE per-voice loop (sampleISR lines 807-846): bump elapsed, compute
the attack envelope and rise pitch factor, drop the voice only if elapsed
exceeds SAMPLE_RATE/10 with the envelope still below 0.01, otherwise
advance the phase and accumulate the enveloped sine sample. -/
def riseVoiceLoop (fo : FloatOracles) (octave : Nat) :
    List ActiveNote → List ActiveNote × Int × Nat
  | [] => ([], 0, 0)
  | v :: vs =>
    let elapsed := v.elapsed + 1
    let env := getAttackEnvelope elapsed
    let pitchFactor := getRisePitchFactor elapsed
    if elapsed > 22050 / 10 ∧ env < 1 / 100 then riseVoiceLoop fo octave vs
    else
      let noteStep := octaveScale octave v.stepSize
      let modifiedStep := truncToUInt32 ((noteStep : ℚ) * pitchFactor)
      let newPhase := (v.phaseAcc + modifiedStep) % 2 ^ 32
      let sample := cIntOfQ ((fo.sineSample (newPhase >>> 24) : ℚ) * env)
      let rest := riseVoiceLoop fo octave vs
      ({ stepSize := v.stepSize, phaseAcc := newPhase, elapsed := elapsed } :: rest.1,
       rest.2.1 + sample, rest.2.2 + 1)

/-- The non-enveloped per-voice mixing loop (sampleISR lines 876-886):
advance each voice's phase by its octave-scaled step and add its waveform
sample, threading the noise seed.  Returns the updated voices, the mix
contribution, the voice count contribution and the final seed. -/
def mainVoiceLoop (fo : FloatOracles) (wf : WaveformType) (knob3 : Int)
    (octave : Nat) : List ActiveNote → Nat → List ActiveNote × Int × Nat × Nat
  | [], seed => ([], 0, 0, seed)
  | v :: vs, seed =>
    let noteStep := octaveScale octave v.stepSize
    let newPhase := (v.phaseAcc + noteStep) % 2 ^ 32
    let sm := computeWaveform fo wf knob3 seed newPhase
    let rest := mainVoiceLoop fo wf knob3 octave vs sm.2
    ({ stepSize := v.stepSize, phaseAcc := newPhase, elapsed := v.elapsed } :: rest.1,
     rest.2.1 + sm.1, rest.2.2.1 + 1, rest.2.2.2)

/-- sampleISR (main.cpp lines 738-908): returns the new global state and the
value written to the DAC (none in SENDER role, where the ISR returns before
writing).  The three branches mirror the source: PIANO, RISE, and the
non-enveloped path with its legacy primary voice derived from
currentStepSize, the knob0 transpose multiplier, the joystick pitch bend
and the process-global phase accumulator. -/
def sampleISR (fo : FloatOracles) (st : ISRState) : ISRState × Option Int :=
  if st.moduleRole = ModuleRole.SENDER then (st, none)
  else
    let octave : Nat := (clamp2 0 8 st.knob2).toNat
    if st.currentWaveform = WaveformType.PIANO then
      let res := pianoVoiceLoop fo octave st.activeNotes
      let normalizedSample := if res.2.2 > 0 then Int.tdiv res.2.1 res.2.2 else 0
      let volume := clamp2 0 8 st.knob3
      let scaledSample := Int.tdiv (normalizedSample * volume) 8
      let finalOutput := clamp2 0 255 (scaledSample + 128)
      ({ st with activeNotes := res.1, moduleOctave := octave }, some finalOutput)
    else if st.currentWaveform = WaveformType.RISE then
      let res := riseVoiceLoop fo octave st.activeNotes
      let normalizedSample := if res.2.2 > 0 then Int.tdiv res.2.1 res.2.2 else 0
      let volume := clamp2 0 8 st.knob3
      let scaledSample := Int.tdiv (normalizedSample * volume) 8
      let finalOutput := clamp2 0 255 (scaledSample + 128)
      ({ st with activeNotes := res.1, moduleOctave := octave }, some finalOutput)
    else
      let mult := transposeMultipliers.getD st.knob0.toNat 1
      let effectiveStep := truncToUInt32 ((st.currentStepSize : ℚ) * mult)
      let effectiveStep :=
        (((effectiveStep : Int) +
            (st.joyY12Val - 6) * ((effectiveStep / 100 : Nat) : Int)) % (2 ^ 32 : Int)).toNat
      let scaledEffectiveStep := octaveScale octave effectiveStep
      let phaseAcc := (st.phaseAcc + scaledEffectiveStep) % 2 ^ 32
      let main := computeWaveform fo st.currentWaveform st.knob3 st.noiseSeed phaseAcc
      let res := mainVoiceLoop fo st.currentWaveform st.knob3 octave st.activeNotes main.2
      let mixSum := main.1 + res.2.1
      let voices : Nat := 1 + res.2.2.1
      let normalizedSample := Int.tdiv mixSum voices
      let volume := clamp2 0 8 st.knob3
      let scaledSample := Int.tdiv (normalizedSample * volume) 8
      let finalOutput := clamp2 0 255 (scaledSample + 128)
      ({ st with
          phaseAcc := phaseAcc
          activeNotes := res.1
          noiseSeed := res.2.2.2
          moduleOctave := octave }, some finalOutput)

/-! ### Joystick remap (displayUpdateTask lines 528-533) -/

/-- Arduino map(x, in_min, in_max, out_min, out_max) on long integers:
(x - in_min) * (out_max - out_min) / (in_max - in_min) + out_min, with C
division truncating toward zero. -/
def arduinoMap (x inMin inMax outMin outMax : Int) : Int :=
  Int.tdiv ((x - inMin) * (outMax - outMin)) (inMax - inMin) + outMin

/-- The joystick remap used for joyX12Val and joyY12Val:
map(raw, 800, 119, 0, 12). -/
def joyMap (raw : Int) : Int :=
  arduinoMap raw 800 119 0 12

/-! ### Claim C8: DAC output on silent input -/

/-- Oracles that return 0 everywhere; the claims below never depend on the
oracle values, so any instantiation works for concrete evaluation. -/
def zeroOracles : FloatOracles :=
  { sineSample := fun _ => 0, pianoEnv := fun _ => 0 }

/-- A silent receiver state with the SAWTOOTH waveform, full volume and the
phase accumulator at its reset value. -/
def silentSawtoothState : ISRState :=
  { moduleRole := ModuleRole.RECEIVER, currentWaveform := WaveformType.SAWTOOTH,
    currentStepSize := 0, phaseAcc := 0, activeNotes := [],
    knob0 := 4, knob2 := 4, knob3 := 8, joyY12Val := 6,
    noiseSeed := 0x12345678, moduleOctave := 4 }

/-- A silent receiver state with the PIANO waveform. -/
def silentPianoState : ISRState :=
  { moduleRole := ModuleRole.RECEIVER, currentWaveform := WaveformType.PIANO,
    currentStepSize := 0, phaseAcc := 0, activeNotes := [],
    knob0 := 4, knob2 := 4, knob3 := 8, joyY12Val := 6,
    noiseSeed := 0x12345678, moduleOctave := 4 }

/-- C8 counterexample: in RECEIVER role with no key held (currentStepSize 0)
and an empty voice table, waveform SAWTOOTH and volume 8, the ISR still
mixes the legacy primary voice at the stale phase accumulator: at phase 0
the sawtooth sample is -128, so the DAC receives 0, not 128. -/
theorem C8_counterexample :
    (sampleISR zeroOracles silentSawtoothState).2 = some 0 ∧
      (sampleISR zeroOracles silentSawtoothState).2 ≠ some 128 := by
  have hval : (sampleISR zeroOracles silentSawtoothState).2 = some 0 := by
    simp [sampleISR, silentSawtoothState, zeroOracles, mainVoiceLoop,
      computeWaveform, truncToUInt32, octaveScale, clamp2, transposeMultipliers]
    decide
  refine ⟨hval, by rw [hval]; simp⟩

/-- C8 (amended): on a silent sample tick (no key held, empty voice table)
in RECEIVER role the DAC output is 128 whenever the waveform is PIANO or
RISE, or the volume knob is 0; for the six non-enveloped waveforms with
nonzero volume the output is the stale-phase waveform sample scaled by the
volume, which need not be 128. -/
theorem C8_silent_dac (fo : FloatOracles) (st : ISRState)
    (hrole : st.moduleRole = ModuleRole.RECEIVER)
    (hstep : st.currentStepSize = 0)
    (hnotes : st.activeNotes = [])
    (hvol : 0 ≤ st.knob3 ∧ st.knob3 ≤ 8)
    (hcase : st.currentWaveform = WaveformType.PIANO ∨
      st.currentWaveform = WaveformType.RISE ∨ st.knob3 = 0) :
    (sampleISR fo st).2 = some 128 := by
  rcases hcase with hw | hw | hv0
  · simp [sampleISR, hrole, hw, hnotes, pianoVoiceLoop, clamp2]
  · simp [sampleISR, hrole, hw, hnotes, riseVoiceLoop, clamp2]
  · by_cases hp : st.currentWaveform = WaveformType.PIANO
    · simp [sampleISR, hrole, hp, hnotes, pianoVoiceLoop, clamp2]
    · by_cases hr : st.currentWaveform = WaveformType.RISE
      · simp [sampleISR, hrole, hr, hnotes, riseVoiceLoop, clamp2]
      · simp [sampleISR, hrole, hp, hr, hnotes, hstep, hv0, mainVoiceLoop,
          truncToUInt32, octaveScale, clamp2]

/-- C8 witness: the silent PIANO state produces exactly 128. -/
theorem C8_silent_dac_witness :
    (sampleISR zeroOracles silentPianoState).2 = some 128 :=
  C8_silent_dac zeroOracles silentPianoState rfl rfl rfl
    ⟨by decide, by decide⟩ (Or.inl rfl)

/-! ### Claim C9: joystick remap range -/

/-- C9 counterexample: map(raw,800,119,0,12) maps 800 to 0 and 119 to 12,
but the code never clamps: the raw reading 0 yields 14, outside [0,12]. -/
theorem C9_counterexample :
    joyMap 800 = 0 ∧ joyMap 119 = 12 ∧ joyMap 0 = 14 ∧ ¬(joyMap 0 ≤ 12) := by
  refine ⟨by decide, by decide, by decide, by decide⟩

/-- C9 (amended): the stored value is the unclamped linear remap
map(raw, 800, 119, 0, 12); 800 maps to 0 and 119 maps to 12, and for raw
inside [119,800] the value lies in [0,12]; raw readings outside [119,800]
can produce values outside [0,12] since no clamping is applied. -/
theorem C9_joystick_remap (raw : Int) (h1 : 119 ≤ raw) (h2 : raw ≤ 800) :
    (0 ≤ joyMap raw ∧ joyMap raw ≤ 12) ∧ joyMap 800 = 0 ∧ joyMap 119 = 12 := by
  refine ⟨?_, by decide, by decide⟩
  obtain ⟨n, hn, hn681⟩ : ∃ n : Nat, 800 - raw = (n : Int) ∧ n ≤ 681 := by
    refine ⟨(800 - raw).toNat, ?_, ?_⟩ <;> omega
  have hexpr : joyMap raw = Int.tdiv ((raw - 800) * 12) (-681) := by
    simp [joyMap, arduinoMap]
  have hneg : (raw - 800) * 12 = -(((n * 12 : Nat) : Int)) := by
    push_cast
    rw [← hn]
    ring
  have htdiv : joyMap raw = (((n * 12) / 681 : Nat) : Int) := by
    rw [hexpr, hneg, Int.neg_tdiv, Int.tdiv_neg, neg_neg]
    exact_mod_cast rfl
  rw [htdiv]
  have hub : (n * 12) / 681 ≤ 12 := by omega
  constructor
  · positivity
  · exact_mod_cast hub

/-- C9 witness: the centered raw reading 460 lands inside [0,12]. -/
theorem C9_joystick_remap_witness :
    (0 ≤ joyMap 460 ∧ joyMap 460 ≤ 12) ∧ joyMap 800 = 0 ∧ joyMap 119 = 12 :=
  C9_joystick_remap 460 (by decide) (by decide)

/-! ### Claim C10: the RISE defensive removal branch is unreachable -/

/-- Past SAMPLE_RATE/10 samples the attack envelope is at least 1/3. -/
theorem getAttackEnvelope_ge_third (e : Nat) (he : 22050 / 10 < e) :
    1 / 3 ≤ getAttackEnvelope e := by
  have he1 : (2206 : ℚ) ≤ (e : ℚ) := by
    exact_mod_cast (by omega : (2206 : Nat) ≤ e)
  simp only [getAttackEnvelope]
  split_ifs with h
  · norm_num
  · have hrw : (e : ℚ) / 22050 / (3 / 10) = (e : ℚ) / 6615 := by
      ring
    rw [hrw, div_le_div_iff₀ (by norm_num) (by norm_num)]
    linarith

/-- The RISE per-voice loop never removes a voice: the surviving step sizes
are exactly the incoming ones, in order. -/
theorem riseVoiceLoop_preserves (fo : FloatOracles) (octave : Nat)
    (notes : List ActiveNote) :
    ((riseVoiceLoop fo octave notes).1).map ActiveNote.stepSize =
      notes.map ActiveNote.stepSize := by
  induction notes with
  | nil => rfl
  | cons v vs ih =>
    have hcond : ¬(v.elapsed + 1 > 22050 / 10 ∧
        getAttackEnvelope (v.elapsed + 1) < 1 / 100) := by
      rintro ⟨hc1, hc2⟩
      have := getAttackEnvelope_ge_third (v.elapsed + 1) hc1
      linarith
    simp only [riseVoiceLoop]
    rw [if_neg hcond]
    simp [ih]

/-- C10: in RISE mode the audio ISR removes no voice from the table — the
defensive branch needs elapsed > SAMPLE_RATE/10 and an envelope below 0.01,
but past SAMPLE_RATE/10 the attack envelope is at least 1/3. -/
theorem C10_rise_no_isr_removal (fo : FloatOracles) (st : ISRState)
    (hrole : st.moduleRole = ModuleRole.RECEIVER)
    (hwf : st.currentWaveform = WaveformType.RISE) :
    ((sampleISR fo st).1.activeNotes).map ActiveNote.stepSize =
        st.activeNotes.map ActiveNote.stepSize ∧
      (∀ e : Nat, 22050 / 10 < e →
        1 / 3 ≤ getAttackEnvelope e ∧ ¬(getAttackEnvelope e < 1 / 100)) := by
  constructor
  · simp only [sampleISR, hrole, hwf]
    norm_num
    exact riseVoiceLoop_preserves fo _ st.activeNotes
  · intro e he
    have h := getAttackEnvelope_ge_third e he
    exact ⟨h, by linarith⟩

/-- A receiver state in RISE mode holding one long-running voice. -/
def riseOneVoiceState : ISRState :=
  { moduleRole := ModuleRole.RECEIVER, currentWaveform := WaveformType.RISE,
    currentStepSize := 0, phaseAcc := 0,
    activeNotes := [{ stepSize := 85704562, phaseAcc := 0, elapsed := 40000 }],
    knob0 := 4, knob2 := 4, knob3 := 8, joyY12Val := 6,
    noiseSeed := 0x12345678, moduleOctave := 4 }

/-- C10 witness: one RISE sample tick on a long-running voice keeps the
voice in the table. -/
theorem C10_rise_no_isr_removal_witness :
    ((sampleISR zeroOracles riseOneVoiceState).1.activeNotes).map
        ActiveNote.stepSize =
      riseOneVoiceState.activeNotes.map ActiveNote.stepSize :=
  (C10_rise_no_isr_removal zeroOracles riseOneVoiceState rfl rfl).1

end ESSynth
